import Mathlib

/-
Verification of the Stellinch HTLC atomic-swap core against its specification.

The definitions below are a shallow embedding of the JavaScript/TypeScript
sources of the repository:
  - the StellarHTLC class (stellar/htlc-contract, two near-identical copies
    in the sources): validateSecret, isTimelockExpired, generateContractId,
    createFundingTransaction, createClaimingTransaction,
    createRefundTransaction, extractSecretFromTransaction;
  - the coordinator test scripts real-test-stellar-to-base.js and
    real-test-base-to-stellar.js: generateHashlock, lockETHIntoHTLC
    (timelock packing) and claimAssets (local secret re-verification).

Modelling conventions:
  - JS strings are List Char (abbreviated Str); Node Buffers are List Nat
    with every element < 256.
  - The ambient clock read Date.now() is made explicit: every operation that
    the source gates on Date.now() takes a nowMs : Nat parameter standing
    for the millisecond reading at the moment of the call.  The source
    comparison Date.now() / 1000 > timelock is exact real division of
    integers, so it is embedded as nowMs > 1000 * timelock.
  - crypto.createHash(sha256) is embedded as a full executable SHA-256 over
    Nat byte lists (verified against the FIPS test vectors during
    development).
  - throw new Error(msg) sites are embedded as Except values; the inductive
    error type has one constructor per throw site, each documented with the
    exact source message.
  - Network submission, XDR construction, keypairs and randomness are
    external SDK collaborators and are outside the embedded core; the
    embedded transactions keep the fields the core logic reads (type, memo,
    addresses, amount).
-/

abbrev Str := List Char

/-! ## SHA-256 over byte lists (model of crypto.createHash of sha256) -/

/-- Reduction of a Nat to a 32-bit word value. -/
def w32 (n : Nat) : Nat := n % 4294967296

/-- Right rotation of a 32-bit word (arguments below 2 to the 32). -/
def rotr (k n : Nat) : Nat := n / 2 ^ k + n % 2 ^ k * 2 ^ (32 - k)

/-- SHA-256 choice function. -/
def ch32 (x y z : Nat) : Nat := (x &&& y) ^^^ ((4294967295 ^^^ x) &&& z)

/-- SHA-256 majority function. -/
def maj32 (x y z : Nat) : Nat := (x &&& y) ^^^ (x &&& z) ^^^ (y &&& z)

/-- SHA-256 big sigma 0. -/
def bigSigma0 (x : Nat) : Nat := rotr 2 x ^^^ rotr 13 x ^^^ rotr 22 x

/-- SHA-256 big sigma 1. -/
def bigSigma1 (x : Nat) : Nat := rotr 6 x ^^^ rotr 11 x ^^^ rotr 25 x

/-- SHA-256 small sigma 0 (the division is a logical shift right by 3). -/
def smallSigma0 (x : Nat) : Nat := rotr 7 x ^^^ rotr 18 x ^^^ x / 8

/-- SHA-256 small sigma 1 (the division is a logical shift right by 10). -/
def smallSigma1 (x : Nat) : Nat := rotr 17 x ^^^ rotr 19 x ^^^ x / 1024

/-- The 64 SHA-256 round constants (FIPS 180-4, written in decimal). -/
def sha256K : List Nat :=
  [1116352408, 1899447441, 3049323471, 3921009573, 961987163, 1508970993,
   2453635748, 2870763221, 3624381080, 310598401, 607225278, 1426881987,
   1925078388, 2162078206, 2614888103, 3248222580, 3835390401, 4022224774,
   264347078, 604807628, 770255983, 1249150122, 1555081692, 1996064986,
   2554220882, 2821834349, 2952996808, 3210313671, 3336571891, 3584528711,
   113926993, 338241895, 666307205, 773529912, 1294757372, 1396182291,
   1695183700, 1986661051, 2177026350, 2456956037, 2730485921, 2820302411,
   3259730800, 3345764771, 3516065817, 3600352804, 4094571909, 275423344,
   430227734, 506948616, 659060556, 883997877, 958139571, 1322822218,
   1537002063, 1747873779, 1955562222, 2024104815, 2227730452, 2361852424,
   2428436474, 2756734187, 3204031479, 3329325298]

/-- The eight 32-bit words of a SHA-256 state. -/
structure Sha8 where
  a : Nat
  b : Nat
  c : Nat
  d : Nat
  e : Nat
  f : Nat
  g : Nat
  h : Nat

/-- SHA-256 initial state (FIPS 180-4, written in decimal). -/
def shaInit : Sha8 :=
  ⟨1779033703, 3144134277, 1013904242, 2773480762,
   1359893119, 2600822924, 528734635, 1541459225⟩

/-- Message-schedule expansion, accumulating the words most recent first. -/
def scheduleAux : Nat → List Nat → List Nat
  | 0, acc => acc
  | fuel + 1, acc =>
      let next := w32 (smallSigma1 (acc.getD 1 0) + acc.getD 6 0 +
                       smallSigma0 (acc.getD 14 0) + acc.getD 15 0)
      scheduleAux fuel (next :: acc)

/-- The 64-entry message schedule of one 16-word block. -/
def schedule (block16 : List Nat) : List Nat :=
  (scheduleAux 48 block16.reverse).reverse

/-- One SHA-256 compression round; kw pairs the round constant with the
scheduled word. -/
def compressStep (st : Sha8) (kw : Nat × Nat) : Sha8 :=
  let t1 := w32 (st.h + bigSigma1 st.e + ch32 st.e st.f st.g + kw.1 + kw.2)
  let t2 := w32 (bigSigma0 st.a + maj32 st.a st.b st.c)
  ⟨w32 (t1 + t2), st.a, st.b, st.c, w32 (st.d + t1), st.e, st.f, st.g⟩

/-- Compression of one block followed by the feed-forward addition. -/
def processBlock (st : Sha8) (block16 : List Nat) : Sha8 :=
  let fin := (sha256K.zip (schedule block16)).foldl compressStep st
  ⟨w32 (st.a + fin.a), w32 (st.b + fin.b), w32 (st.c + fin.c), w32 (st.d + fin.d),
   w32 (st.e + fin.e), w32 (st.f + fin.f), w32 (st.g + fin.g), w32 (st.h + fin.h)⟩

/-- Fuel-driven list chunking (fuel bounds the number of chunks). -/
def chunkAux : Nat → Nat → List Nat → List (List Nat)
  | 0, _, _ => []
  | _, _, [] => []
  | fuel + 1, k, l => l.take k :: chunkAux fuel k (l.drop k)

/-- Splitting of a list into chunks of size k. -/
def chunk (k : Nat) (l : List Nat) : List (List Nat) := chunkAux l.length k l

/-- Big-endian packing of bytes into 32-bit words. -/
def bytesToWords : List Nat → List Nat
  | b0 :: b1 :: b2 :: b3 :: rest => (b0 * 16777216 + b1 * 65536 + b2 * 256 + b3) :: bytesToWords rest
  | _ => []

/-- Big-endian 64-bit length field of the SHA-256 padding. -/
def len64be (n : Nat) : List Nat :=
  [n / 2 ^ 56 % 256, n / 2 ^ 48 % 256, n / 2 ^ 40 % 256, n / 2 ^ 32 % 256,
   n / 2 ^ 24 % 256, n / 2 ^ 16 % 256, n / 2 ^ 8 % 256, n % 256]

/-- SHA-256 message padding to a multiple of 64 bytes. -/
def padMessage (msg : List Nat) : List Nat :=
  msg ++ 128 :: List.replicate ((119 - msg.length % 64) % 64) 0 ++ len64be (msg.length * 8)

/-- Big-endian byte decomposition of a 32-bit word. -/
def wordBytes (w : Nat) : List Nat :=
  [w / 16777216 % 256, w / 65536 % 256, w / 256 % 256, w % 256]

/-- SHA-256 digest (32 bytes) of a byte list. -/
def sha256Bytes (msg : List Nat) : List Nat :=
  let fin := ((chunk 64 (padMessage msg)).map bytesToWords).foldl processBlock shaInit
  wordBytes fin.a ++ wordBytes fin.b ++ wordBytes fin.c ++ wordBytes fin.d ++
  wordBytes fin.e ++ wordBytes fin.f ++ wordBytes fin.g ++ wordBytes fin.h

/-! ## Hex codec (model of Buffer hex decoding and digest hex encoding) -/

/-- Lowercase hex digit of a value below 16. -/
def hexDigitChar : Nat → Char
  | 0 => '0' | 1 => '1' | 2 => '2' | 3 => '3' | 4 => '4' | 5 => '5' | 6 => '6' | 7 => '7'
  | 8 => '8' | 9 => '9' | 10 => 'a' | 11 => 'b' | 12 => 'c' | 13 => 'd' | 14 => 'e' | 15 => 'f'
  | _ => '0'

/-- Lowercase hex encoding of a byte list, as Buffer.toString of hex. -/
def hexEncode : List Nat → Str
  | [] => []
  | b :: t => hexDigitChar (b / 16 % 16) :: hexDigitChar (b % 16) :: hexEncode t

/-- Hex digest string of a byte list, as digest of hex in the source. -/
def sha256Hex (msg : List Nat) : Str := hexEncode (sha256Bytes msg)

/-- Value of one hex character, accepting both cases as the regex class
[a-fA-F0-9] and Buffer.from hex parsing do. -/
def hexVal (c : Char) : Option Nat :=
  if '0' ≤ c ∧ c ≤ '9' then some (c.toNat - 48)
  else if 'a' ≤ c ∧ c ≤ 'f' then some (c.toNat - 87)
  else if 'A' ≤ c ∧ c ≤ 'F' then some (c.toNat - 55)
  else none

/-- Membership in the character class [a-fA-F0-9]. -/
def isHexAsciiChar (c : Char) : Bool := (hexVal c).isSome

/-- Hex decoding with Node Buffer.from(s, hex) semantics: bytes are parsed
pairwise from the left and parsing stops at the first incomplete or
non-hex pair, discarding the rest. -/
def hexDecodeJS : Str → List Nat
  | c1 :: c2 :: rest =>
      match hexVal c1, hexVal c2 with
      | some hi, some lo => (16 * hi + lo) :: hexDecodeJS rest
      | _, _ => []
  | _ => []

/-- Removal of the first occurrence of the substring 0x, as the JS
String.replace with a plain-string pattern used throughout the source
(secret.replace and hashlock.replace); the string is returned unchanged
when 0x does not occur. -/
def strip0x : Str → Str
  | '0' :: 'x' :: t => t
  | c :: t => c :: strip0x t
  | [] => []

/-- Decimal digits of a Nat, fuel-driven (fuel bounds the digit count). -/
def natDecimalAux : Nat → Nat → Str
  | 0, _ => []
  | fuel + 1, n => if n < 10 then [hexDigitChar n] else natDecimalAux fuel (n / 10) ++ [hexDigitChar (n % 10)]

/-- Decimal representation of a Nat, as JSON.stringify renders a number. -/
def natDecimal (n : Nat) : Str := natDecimalAux (n + 1) n

/-- Byte list of an ASCII string, as Buffer.from(s) with UTF-8 encoding on
the ASCII subset the source strings use. -/
def strBytes (s : Str) : List Nat := s.map Char.toNat

/-! ## StellarHTLC class (stellar/htlc-contract in the sources) -/

/-- Configuration of a StellarHTLC instance (StellarHTLCConfig in the
source); network is kept as a plain string tag. -/
structure StellarHTLCConfig where
  secret : Str
  hashlock : Str
  amount : Str
  makerAddress : Str
  takerAddress : Str
  timelock : Nat
  network : Str
deriving DecidableEq

/-- Transaction kinds of StellarHTLCTransaction (the source type field has
the values fund, claim and refund). -/
inductive TxKind where
  | fund : TxKind
  | claim : TxKind
  | refund : TxKind
deriving DecidableEq

/-- Observable fields of a StellarHTLCTransaction that the embedded core
logic reads or writes; id, xdr, hash and signature come from the external
SDK and randomness and are not modelled. -/
structure StellarTx where
  kind : TxKind
  fromAddr : Str
  toAddr : Str
  amount : Str
  memo : Str
deriving DecidableEq

/-- Throw sites of the StellarHTLC class:
invalidSecret is throw Error(Invalid secret provided),
timelockExpired is throw Error(Timelock has expired, cannot claim),
timelockNotExpired is throw Error(Timelock has not expired yet, cannot
refund). -/
inductive StellarError where
  | invalidSecret : StellarError
  | timelockExpired : StellarError
  | timelockNotExpired : StellarError
deriving DecidableEq

/-- Literal HTLC_CLAIM_ of the claim memo template. -/
def claimLit : Str := ['H', 'T', 'L', 'C', '_', 'C', 'L', 'A', 'I', 'M', '_']

/-- Literal HTLC_FUND_ of the funding memo template. -/
def fundLit : Str := ['H', 'T', 'L', 'C', '_', 'F', 'U', 'N', 'D', '_']

/-- Literal HTLC_REFUND_ of the refund memo template. -/
def refundLit : Str := ['H', 'T', 'L', 'C', '_', 'R', 'E', 'F', 'U', 'N', 'D', '_']

/-- Opening brace character of the JSON text. -/
def jsonLB : Char := Char.ofNat 123

/-- Closing brace character of the JSON text. -/
def jsonRB : Char := Char.ofNat 125

/-- Quote character of the JSON text. -/
def jsonQ : Char := Char.ofNat 34

/-- JSON fragment for one string-valued field followed by a comma. -/
def jsonStrField (name value : Str) : Str :=
  jsonQ :: name ++ jsonQ :: ':' :: jsonQ :: value ++ [jsonQ, ',']

/-- Text hashed by generateContractId: the JSON.stringify rendering of the
object with the hashlock, maker, taker, amount and timelock fields. -/
def contractIdSource (cfg : StellarHTLCConfig) : Str :=
  jsonLB ::
    (jsonStrField ['h', 'a', 's', 'h', 'l', 'o', 'c', 'k'] cfg.hashlock ++
     jsonStrField ['m', 'a', 'k', 'e', 'r'] cfg.makerAddress ++
     jsonStrField ['t', 'a', 'k', 'e', 'r'] cfg.takerAddress ++
     jsonStrField ['a', 'm', 'o', 'u', 'n', 't'] cfg.amount ++
     jsonQ :: ['t', 'i', 'm', 'e', 'l', 'o', 'c', 'k'] ++ jsonQ :: ':' :: natDecimal cfg.timelock) ++
  [jsonRB]

/-- Contract identifier: the first 16 hex characters of the SHA-256 digest
of the JSON text (generateContractId in the source). -/
def contractId (cfg : StellarHTLCConfig) : Str :=
  (sha256Hex (strBytes (contractIdSource cfg))).take 16

/-- Secret validation (validateSecret in the source): strip the first 0x,
hex-decode, hash, and compare the hex digest with the configured hashlock
stripped of its first 0x.  The result is an ordinary boolean for inputs of
every length; the source has no length check and no failure path. -/
def validateSecret (cfg : StellarHTLCConfig) (secret : Str) : Bool :=
  sha256Hex (hexDecodeJS (strip0x secret)) == strip0x cfg.hashlock

/-- Timelock expiry (isTimelockExpired in the source): the source compares
Date.now() / 1000 > timelock with exact float division, embedded with the
millisecond clock reading as the explicit parameter nowMs. -/
def isTimelockExpired (cfg : StellarHTLCConfig) (nowMs : Nat) : Bool :=
  nowMs > 1000 * cfg.timelock

/-- Funding transaction construction (createFundingTransaction in the
source): no precondition is checked; the payment goes from the taker to
the maker with the memo HTLC_FUND_ followed by the contract id. -/
def createFundingTransaction (cfg : StellarHTLCConfig) : Except StellarError StellarTx :=
  .ok { kind := .fund, fromAddr := cfg.takerAddress, toAddr := cfg.makerAddress,
        amount := cfg.amount, memo := fundLit ++ contractId cfg }

/-- Claiming transaction construction (createClaimingTransaction in the
source): throws invalidSecret when validateSecret fails, then
timelockExpired when the timelock has expired; otherwise it builds the
memo HTLC_CLAIM_ ++ contractId ++ _ ++ secret-without-0x, which is what
reveals the secret. -/
def createClaimingTransaction (cfg : StellarHTLCConfig) (secret : Str) (nowMs : Nat) :
    Except StellarError StellarTx :=
  if validateSecret cfg secret = false then .error .invalidSecret
  else if isTimelockExpired cfg nowMs then .error .timelockExpired
  else .ok { kind := .claim, fromAddr := cfg.makerAddress, toAddr := cfg.makerAddress,
             amount := cfg.amount,
             memo := claimLit ++ contractId cfg ++ '_' :: strip0x secret }

/-- Refund transaction construction (createRefundTransaction in the
source): throws timelockNotExpired unless the timelock has expired;
otherwise the payment goes back from the maker to the taker. -/
def createRefundTransaction (cfg : StellarHTLCConfig) (nowMs : Nat) :
    Except StellarError StellarTx :=
  if isTimelockExpired cfg nowMs = false then .error .timelockNotExpired
  else .ok { kind := .refund, fromAddr := cfg.makerAddress, toAddr := cfg.takerAddress,
             amount := cfg.amount, memo := refundLit ++ contractId cfg }

/-! ## The claim-memo regular expression

The source extracts the revealed secret with the JS regular expression
HTLC_CLAIM_[^_]+_([a-fA-F0-9]+) searched over the memo.  At a given start
position the literal must match, then [^_]+ takes the maximal run of
non-underscore characters (no backtracking can help, since the literal _
that follows cannot match inside the run), then a hex run of at least one
character is captured greedily; failing that, the search advances one
character.  The functions below implement exactly that semantics. -/

/-- Literal matching: returns the remainder after the literal. -/
def dropLiteral : Str → Str → Option Str
  | [], s => some s
  | _ :: _, [] => none
  | c :: cs, d :: ds => if c = d then dropLiteral cs ds else none

/-- Attempt of the whole pattern at the current position. -/
def matchClaimAt (s : Str) : Option Str :=
  match dropLiteral claimLit s with
  | none => none
  | some rest =>
      let idRun := rest.takeWhile fun c => !(c == '_')
      match idRun, rest.dropWhile fun c => !(c == '_') with
      | [], _ => none
      | _ :: _, '_' :: rest2 =>
          match rest2.takeWhile isHexAsciiChar with
          | [] => none
          | h :: t => some (h :: t)
      | _ :: _, _ => none

/-- First-match search of the claim-secret pattern over a string. -/
def findClaimSecret : Str → Option Str
  | [] => none
  | c :: t =>
      match matchClaimAt (c :: t) with
      | some r => some r
      | none => findClaimSecret t

/-- Secret extraction from a transaction (extractSecretFromTransaction in
the source): only claim transactions are inspected; the captured hex run
of the memo is prefixed with 0x and returned only when validateSecret
accepts it; otherwise null, embedded as none. -/
def extractSecretFromTransaction (cfg : StellarHTLCConfig) (tx : StellarTx) : Option Str :=
  if tx.kind ≠ TxKind.claim then none
  else
    match findClaimSecret tx.memo with
    | none => none
    | some hexRun =>
        let secret := '0' :: 'x' :: hexRun
        if validateSecret cfg secret then some secret else none

/-! ## Operation sequences on one escrow record

The StellarHTLC class stores only the immutable config and the contract id
derived from it; it has no lifecycle field, so each operation is a pure
function of the config, the arguments and the clock reading at the call. -/

/-- One operation of a sequence, carrying the millisecond clock reading at
the moment of the call. -/
inductive HtlcOp where
  | fundOp : Nat → HtlcOp
  | claimOp : Str → Nat → HtlcOp
  | refundOp : Nat → HtlcOp
deriving DecidableEq

/-- Outcome of one operation on the record. -/
def execOp (cfg : StellarHTLCConfig) : HtlcOp → Except StellarError StellarTx
  | .fundOp _ => createFundingTransaction cfg
  | .claimOp s t => createClaimingTransaction cfg s t
  | .refundOp t => createRefundTransaction cfg t

/-- Outcomes of a whole sequence of operations on one record. -/
def runOps (cfg : StellarHTLCConfig) (ops : List HtlcOp) : List (Except StellarError StellarTx) :=
  ops.map (execOp cfg)

/-- Boolean success test of an Except outcome. -/
def exceptOk : Except StellarError StellarTx → Bool
  | .ok _ => true
  | .error _ => false

/-! ## Coordinator (real-test-stellar-to-base.js and
real-test-base-to-stellar.js) -/

/-- Hashlock derivation of generateHashlock in the coordinator scripts:
the 0x-prefixed lowercase hex of the SHA-256 digest of the secret bytes. -/
def deriveHashlock (secretBytes : List Nat) : Str :=
  '0' :: 'x' :: sha256Hex secretBytes

/-- Canonical string form of a secret, as every secret the scripts generate:
0x followed by the lowercase hex of the bytes. -/
def secretString (secretBytes : List Nat) : Str :=
  '0' :: 'x' :: hexEncode secretBytes

/-- Failure of the dependent-leg claim step: throw Error(Invalid secret
extracted!) in claimAssets and ethTakerClaimETH. -/
inductive CoordError where
  | invalidSecretExtracted : CoordError
deriving DecidableEq

/-- Local re-verification of claimAssets (and of the identical code in
ethTakerClaimETH): the calculated hash is 0x plus the SHA-256 hex of the
buffer decoded from the extracted secret with the first two characters
sliced off; the claim step proceeds (returning the secret the dependent
claim would use) only when it equals the session hashlock, and otherwise
throws before anything is submitted. -/
def claimAssetsVerify (hashlock extractedSecret : Str) : Except CoordError Str :=
  let calculatedHash := '0' :: 'x' :: sha256Hex (hexDecodeJS (extractedSecret.drop 2))
  if calculatedHash == hashlock then .ok extractedSecret
  else .error .invalidSecretExtracted

/-- Timelock packing of lockETHIntoHTLC (identical in both coordinator
scripts): deployment time shifted to bit 224 or-ed with the three relative
offsets at bits 0, 32 and 64; the BigInt arithmetic is exact and nothing
is checked or masked. -/
def packTimelocks (deploy w pw c : Nat) : Nat :=
  deploy <<< 224 ||| w <<< 0 ||| pw <<< 32 ||| c <<< 64

/-- Session data assembled by the stellar-to-base coordinator run that the
timelock claims read: the Stellar leg deadline fixed by generateHashlock
and the packed Base-leg schedule fixed by lockETHIntoHTLC. -/
structure SwapSession where
  secret : Str
  hashlock : Str
  stellarTimelock : Nat
  packedTimelocks : Nat
deriving DecidableEq

/-- Session creation as the coordinator performs it, with the two ambient
clock readings explicit: generateHashlock reads Date.now() once (nowMs1)
and fixes the Stellar deadline at floor(nowMs1 / 1000) + 86400;
lockETHIntoHTLC reads Date.now() again (nowMs2) and packs the fixed
offsets 3600, 21600 and 86400 over floor(nowMs2 / 1000).  No schedule is
validated and creation never fails. -/
def createSessionModel (nowMs1 nowMs2 : Nat) (secretBytes : List Nat) : SwapSession :=
  { secret := secretString secretBytes,
    hashlock := deriveHashlock secretBytes,
    stellarTimelock := nowMs1 / 1000 + 86400,
    packedTimelocks := packTimelocks (nowMs2 / 1000) 3600 21600 86400 }

/-- Cancellation checkpoint of the packed Base-leg word: the deployment
timestamp stored at bit 224 plus the 32-bit cancellation offset stored at
bit 64, the layout the packing comments in the source document. -/
def packedCancellationTime (packed : Nat) : Nat :=
  packed / 2 ^ 224 + packed / 2 ^ 64 % 2 ^ 32

/-! ## Arithmetic of the packed timelock word -/

theorem lor_cons (x y r : Nat) (h : r < 2) : 2 * x ||| (2 * y + r) = 2 * (x ||| y) + r := by
  apply Nat.eq_of_testBit_eq
  intro i
  cases i with
  | zero =>
      rw [Nat.testBit_lor, Nat.testBit_zero, Nat.testBit_zero, Nat.testBit_zero]
      have h1 : 2 * x % 2 = 0 := by omega
      have h2 : (2 * y + r) % 2 = r := by omega
      have h3 : (2 * (x ||| y) + r) % 2 = r := by omega
      rw [h1, h2, h3]
      simp
  | succ i =>
      rw [Nat.testBit_lor, Nat.testBit_succ, Nat.testBit_succ, Nat.testBit_succ]
      have h1 : 2 * x / 2 = x := by omega
      have h2 : (2 * y + r) / 2 = y := by omega
      have h3 : (2 * (x ||| y) + r) / 2 = x ||| y := by omega
      rw [h1, h2, h3, Nat.testBit_lor]

theorem lor_mul_pow_add (k a b : Nat) (h : b < 2 ^ k) : a * 2 ^ k ||| b = a * 2 ^ k + b := by
  induction k generalizing a b with
  | zero =>
      have hb : b = 0 := by simpa using h
      simp [hb]
  | succ k ih =>
      have hb2 : b % 2 < 2 := Nat.mod_lt _ (by omega)
      have hbd : b / 2 < 2 ^ k := by
        have hdm := Nat.div_add_mod b 2
        have hp : (2 : Nat) ^ (k + 1) = 2 * 2 ^ k := by ring
        omega
      have e1 : a * 2 ^ (k + 1) = 2 * (a * 2 ^ k) := by ring
      have e2 : b = 2 * (b / 2) + b % 2 := by omega
      rw [e1, e2, lor_cons _ _ _ hb2, ih _ _ hbd]
      ring

theorem shiftLeft_lor_add (a b k : Nat) (h : b < 2 ^ k) : a <<< k ||| b = a * 2 ^ k + b := by
  rw [Nat.shiftLeft_eq, lor_mul_pow_add _ _ _ h]

/-- Closed arithmetic form of the packed word when the offsets fit their
32-bit fields. -/
theorem packTimelocks_eq_add (d w pw c : Nat)
    (hw : w < 2 ^ 32) (hpw : pw < 2 ^ 32) (hc : c < 2 ^ 32) :
    packTimelocks d w pw c = d * 2 ^ 224 + c * 2 ^ 64 + pw * 2 ^ 32 + w := by
  unfold packTimelocks
  have e0 : w <<< 0 = w := by simp [Nat.shiftLeft_eq]
  rw [e0]
  rw [Nat.lor_assoc, Nat.lor_assoc]
  have einner : w ||| (pw <<< 32 ||| c <<< 64) = c * 2 ^ 64 + pw * 2 ^ 32 + w := by
    rw [Nat.lor_comm (pw <<< 32) (c <<< 64)]
    have h1 : pw <<< 32 ||| w = pw * 2 ^ 32 + w := shiftLeft_lor_add _ _ _ hw
    have hlt : pw * 2 ^ 32 + w < 2 ^ 64 := by
      have : pw * 2 ^ 32 ≤ (2 ^ 32 - 1) * 2 ^ 32 := by
        exact Nat.mul_le_mul_right _ (by omega)
      simp only [Nat.pow_succ] at *
      omega
    have h2 : c <<< 64 ||| (pw * 2 ^ 32 + w) = c * 2 ^ 64 + (pw * 2 ^ 32 + w) :=
      shiftLeft_lor_add _ _ _ hlt
    rw [Nat.lor_comm w, Nat.lor_assoc, h1, h2]
    ring
  rw [einner]
  have hrest : c * 2 ^ 64 + pw * 2 ^ 32 + w < 2 ^ 224 := by
    have hc2 : c * 2 ^ 64 ≤ (2 ^ 32 - 1) * 2 ^ 64 := Nat.mul_le_mul_right _ (by omega)
    have hpw2 : pw * 2 ^ 32 ≤ (2 ^ 32 - 1) * 2 ^ 32 := Nat.mul_le_mul_right _ (by omega)
    have : (2 ^ 32 - 1 : Nat) * 2 ^ 64 + (2 ^ 32 - 1) * 2 ^ 32 + 2 ^ 32 < 2 ^ 224 := by norm_num
    omega
  rw [shiftLeft_lor_add _ _ _ hrest]
  ring

/-- Field extraction from the packed word: each offset sits alone in its
32-bit field and the deployment time sits alone at bit 224. -/
theorem packTimelocks_fields (d w pw c : Nat)
    (hw : w < 2 ^ 32) (hpw : pw < 2 ^ 32) (hc : c < 2 ^ 32) :
    packTimelocks d w pw c % 2 ^ 32 = w ∧
    packTimelocks d w pw c / 2 ^ 32 % 2 ^ 32 = pw ∧
    packTimelocks d w pw c / 2 ^ 64 % 2 ^ 32 = c ∧
    packTimelocks d w pw c / 2 ^ 224 = d := by
  rw [packTimelocks_eq_add d w pw c hw hpw hc]
  refine ⟨by omega, by omega, by omega, by omega⟩

/-! ## Shape of hex encodings and digests -/

theorem hexDigitChar_ne_underscore (n : Nat) : hexDigitChar n ≠ '_' := by
  unfold hexDigitChar; split <;> decide

theorem isHexAsciiChar_hexDigitChar (n : Nat) : isHexAsciiChar (hexDigitChar n) = true := by
  unfold hexDigitChar; split <;> decide

theorem hexVal_hexDigitChar (n : Nat) (h : n < 16) : hexVal (hexDigitChar n) = some n := by
  interval_cases n <;> decide

theorem length_hexEncode (b : List Nat) : (hexEncode b).length = 2 * b.length := by
  induction b with
  | nil => simp [hexEncode]
  | cons x t ih => simp [hexEncode, ih]; ring

theorem mem_hexEncode_isHex (b : List Nat) (c : Char) (h : c ∈ hexEncode b) :
    isHexAsciiChar c = true := by
  induction b with
  | nil => simp [hexEncode] at h
  | cons x t ih =>
      simp only [hexEncode, List.mem_cons] at h
      rcases h with h | h | h
      · exact h ▸ isHexAsciiChar_hexDigitChar _
      · exact h ▸ isHexAsciiChar_hexDigitChar _
      · exact ih h

theorem mem_hexEncode_ne_underscore (b : List Nat) (c : Char) (h : c ∈ hexEncode b) :
    c ≠ '_' := by
  intro he
  have := mem_hexEncode_isHex b c h
  rw [he] at this
  exact absurd this (by decide)

theorem hexDecodeJS_hexEncode (b : List Nat) (hb : ∀ x ∈ b, x < 256) :
    hexDecodeJS (hexEncode b) = b := by
  induction b with
  | nil => simp [hexEncode, hexDecodeJS]
  | cons x t ih =>
      have hx : x < 256 := hb x (List.mem_cons_self _ _)
      have h1 : x / 16 % 16 < 16 := Nat.mod_lt _ (by omega)
      have h2 : x % 16 < 16 := Nat.mod_lt _ (by omega)
      have hd : x / 16 % 16 = x / 16 := Nat.mod_eq_of_lt (by omega)
      simp only [hexEncode, hexDecodeJS, hexVal_hexDigitChar _ h1, hexVal_hexDigitChar _ h2]
      rw [ih fun y hy => hb y (List.mem_cons_of_mem _ hy)]
      congr 1
      omega

theorem length_sha256Bytes (msg : List Nat) : (sha256Bytes msg).length = 32 := by
  simp [sha256Bytes, wordBytes]

theorem length_sha256Hex (msg : List Nat) : (sha256Hex msg).length = 64 := by
  simp [sha256Hex, length_hexEncode, length_sha256Bytes]

theorem mem_sha256Hex_isHex (msg : List Nat) (c : Char) (h : c ∈ sha256Hex msg) :
    isHexAsciiChar c = true :=
  mem_hexEncode_isHex _ _ h

theorem mem_sha256Hex_ne_underscore (msg : List Nat) (c : Char) (h : c ∈ sha256Hex msg) :
    c ≠ '_' :=
  mem_hexEncode_ne_underscore _ _ h

/-! ## Shape of the contract id -/

theorem length_contractId (cfg : StellarHTLCConfig) : (contractId cfg).length = 16 := by
  simp [contractId, List.length_take, length_sha256Hex]

theorem contractId_ne_nil (cfg : StellarHTLCConfig) : contractId cfg ≠ [] := by
  intro h
  have := length_contractId cfg
  rw [h] at this
  simp at this

theorem contractId_no_underscore (cfg : StellarHTLCConfig) (c : Char)
    (h : c ∈ contractId cfg) : c ≠ '_' := by
  have hmem : c ∈ sha256Hex (strBytes (contractIdSource cfg)) :=
    List.take_subset _ _ h
  exact mem_sha256Hex_ne_underscore _ _ hmem

/-! ## Basic facts about strip0x and validateSecret -/

theorem strip0x_0x (t : Str) : strip0x ('0' :: 'x' :: t) = t := by
  simp [strip0x]

theorem beq_false_of_length_ne (a b : Str) (h : a.length ≠ b.length) : (a == b) = false := by
  rw [beq_eq_false_iff_ne]
  intro he
  exact h (he ▸ rfl)

/-- Acceptance of validateSecret on the canonical string form of any byte
list whose digest is the configured hashlock; note that nothing constrains
the length of the byte list. -/
theorem validateSecret_secretString (cfg : StellarHTLCConfig) (b : List Nat)
    (hb : ∀ x ∈ b, x < 256) (hh : strip0x cfg.hashlock = sha256Hex b) :
    validateSecret cfg (secretString b) = true := by
  unfold validateSecret secretString
  rw [strip0x_0x, hexDecodeJS_hexEncode b hb, hh]
  simp

/-- Rejection of validateSecret whenever the stripped hashlock cannot be a
SHA-256 hex digest because its length is not 64. -/
theorem validateSecret_false_of_hashlock_length (cfg : StellarHTLCConfig) (s : Str)
    (h : (strip0x cfg.hashlock).length ≠ 64) : validateSecret cfg s = false := by
  unfold validateSecret
  apply beq_false_of_length_ne
  rw [length_sha256Hex]
  omega

/-! ## Behaviour of the claim-memo matcher on well-formed memos -/

theorem takeWhile_append_of_all (p : Char → Bool) (l r : Str) (h : ∀ c ∈ l, p c = true) :
    (l ++ r).takeWhile p = l ++ r.takeWhile p := by
  induction l with
  | nil => simp
  | cons c t ih =>
      have hc : p c = true := h c (List.mem_cons_self _ _)
      simp [List.takeWhile, hc, ih fun d hd => h d (List.mem_cons_of_mem _ hd)]

theorem dropWhile_append_of_all (p : Char → Bool) (l r : Str) (h : ∀ c ∈ l, p c = true) :
    (l ++ r).dropWhile p = r.dropWhile p := by
  induction l with
  | nil => simp
  | cons c t ih =>
      have hc : p c = true := h c (List.mem_cons_self _ _)
      simp [List.dropWhile, hc, ih fun d hd => h d (List.mem_cons_of_mem _ hd)]

theorem takeWhile_eq_self_of_all (p : Char → Bool) (l : Str) (h : ∀ c ∈ l, p c = true) :
    l.takeWhile p = l := by
  induction l with
  | nil => simp
  | cons c t ih =>
      have hc : p c = true := h c (List.mem_cons_self _ _)
      simp [List.takeWhile, hc, ih fun d hd => h d (List.mem_cons_of_mem _ hd)]

theorem dropLiteral_append (p s : Str) : dropLiteral p (p ++ s) = some s := by
  induction p with
  | nil => simp [dropLiteral]
  | cons c t ih => simp [dropLiteral, ih]

/-- Success of the pattern attempt at position zero of a well-formed claim
memo: the contract-id run carries no underscore and the hex run is the
whole remainder. -/
theorem matchClaimAt_memo (idPart hexs : Str) (hid : idPart ≠ [])
    (hidu : ∀ c ∈ idPart, c ≠ '_') (hhex : hexs ≠ [])
    (hhexall : ∀ c ∈ hexs, isHexAsciiChar c = true) :
    matchClaimAt (claimLit ++ (idPart ++ '_' :: hexs)) = some hexs := by
  obtain ⟨i, it, rfl⟩ := List.exists_cons_of_ne_nil hid
  obtain ⟨x, xt, rfl⟩ := List.exists_cons_of_ne_nil hhex
  unfold matchClaimAt
  rw [dropLiteral_append]
  have hallid : ∀ c ∈ i :: it, (!(c == '_')) = true := by
    intro c hc
    have := hidu c hc
    simpa using this
  have ht : (('_' :: x :: xt).takeWhile fun c => !(c == '_')) = [] := by
    simp [List.takeWhile]
  have hd : (('_' :: x :: xt).dropWhile fun c => !(c == '_')) = '_' :: x :: xt := by
    simp [List.dropWhile]
  simp only [takeWhile_append_of_all _ _ _ hallid,
    dropWhile_append_of_all _ _ _ hallid, ht, hd, List.append_nil,
    takeWhile_eq_self_of_all _ _ hhexall]

/-- First-match search on a well-formed claim memo that starts with the
pattern: the search succeeds immediately with the hex run. -/
theorem findClaimSecret_memo (idPart hexs : Str) (hid : idPart ≠ [])
    (hidu : ∀ c ∈ idPart, c ≠ '_') (hhex : hexs ≠ [])
    (hhexall : ∀ c ∈ hexs, isHexAsciiChar c = true) :
    findClaimSecret (claimLit ++ (idPart ++ '_' :: hexs)) = some hexs := by
  have hm := matchClaimAt_memo idPart hexs hid hidu hhex hhexall
  have he : claimLit ++ (idPart ++ '_' :: hexs) =
      'H' :: (['T', 'L', 'C', '_', 'C', 'L', 'A', 'I', 'M', '_'] ++ (idPart ++ '_' :: hexs)) := rfl
  rw [he] at hm ⊢
  rw [findClaimSecret, hm]

/-! ## Concrete fixtures used by counterexamples and witnesses -/

deriving instance DecidableEq for Except

set_option maxRecDepth 100000

/-- A 32-byte secret (bytes 0 to 31). -/
def stdSecretBytes : List Nat := List.range 32

/-- Canonical string form of the 32-byte fixture secret. -/
def stdSecret : Str := secretString stdSecretBytes

/-- HTLC configuration whose hashlock matches the 32-byte fixture secret;
the deadline is the second 1000 (millisecond reading 1000000). -/
def cfgA : StellarHTLCConfig :=
  { secret := stdSecret, hashlock := deriveHashlock stdSecretBytes,
    amount := ['1', '0'], makerAddress := ['G', 'M'], takerAddress := ['G', 'T'],
    timelock := 1000, network := ['t'] }

/-- A one-byte secret (byte 171), deliberately not 32 bytes long. -/
def shortSecretBytes : List Nat := [171]

/-- HTLC configuration whose hashlock matches the one-byte secret. -/
def cfgShort : StellarHTLCConfig :=
  { secret := secretString shortSecretBytes, hashlock := deriveHashlock shortSecretBytes,
    amount := ['1', '0'], makerAddress := ['G', 'M'], takerAddress := ['G', 'T'],
    timelock := 1000, network := ['t'] }

/-- HTLC configuration whose hashlock is not a hex digest at all. -/
def cfgBad : StellarHTLCConfig :=
  { secret := stdSecret, hashlock := ['z', 'z'],
    amount := ['1', '0'], makerAddress := ['G', 'M'], takerAddress := ['G', 'T'],
    timelock := 1000, network := ['t'] }

/-! ## C1: at-most-once terminal transition -/

/-- C1 (counterexample).  The claim asserts that after the first successful
claim or refund every later claim or refund on the same record fails with
AlreadyTerminal.  On the fixture record, a claim at reading 0 succeeds, a
second claim at reading 500000 succeeds again, and a refund at reading
2000000 (past the deadline) also succeeds: the record admits two
successful claims and a successful refund, and no AlreadyTerminal failure
exists anywhere in the code. -/
theorem C1_counterexample :
    exceptOk (execOp cfgA (.claimOp stdSecret 0)) = true ∧
    exceptOk (execOp cfgA (.claimOp stdSecret 500000)) = true ∧
    exceptOk (execOp cfgA (.refundOp 2000000)) = true := by
  refine ⟨?_, ?_, ?_⟩ <;> decide

/-- C1 (amended).  The StellarHTLC record keeps no lifecycle state: the
outcome of each operation in a sequence is the independent evaluation of
that operation alone, unchanged by any earlier success, and every outcome
is either a success or one of the three stateless errors (invalid secret,
timelock expired, timelock not yet expired); the code has no
AlreadyTerminal failure and enforces no at-most-once transition. -/
theorem C1_stateless_operations (cfg : StellarHTLCConfig) (pre post : List HtlcOp)
    (op : HtlcOp) :
    runOps cfg (pre ++ op :: post) = runOps cfg pre ++ execOp cfg op :: runOps cfg post ∧
    ((∃ tx, execOp cfg op = .ok tx) ∨ execOp cfg op = .error .invalidSecret ∨
      execOp cfg op = .error .timelockExpired ∨ execOp cfg op = .error .timelockNotExpired) := by
  constructor
  · simp [runOps]
  · cases op with
    | fundOp t => exact Or.inl ⟨_, rfl⟩
    | claimOp s t =>
        cases hv : validateSecret cfg s with
        | false =>
            refine Or.inr (Or.inl ?_)
            simp [execOp, createClaimingTransaction, hv]
        | true =>
            cases he : isTimelockExpired cfg t with
            | false =>
                have hok : execOp cfg (.claimOp s t) =
                    .ok { kind := .claim, fromAddr := cfg.makerAddress, toAddr := cfg.makerAddress,
                          amount := cfg.amount,
                          memo := claimLit ++ contractId cfg ++ '_' :: strip0x s } := by
                  simp [execOp, createClaimingTransaction, hv, he]
                exact Or.inl ⟨_, hok⟩
            | true =>
                refine Or.inr (Or.inr (Or.inl ?_))
                simp [execOp, createClaimingTransaction, hv, he]
    | refundOp t =>
        cases he : isTimelockExpired cfg t with
        | false =>
            refine Or.inr (Or.inr (Or.inr ?_))
            simp [execOp, createRefundTransaction, he]
        | true =>
            have hok : execOp cfg (.refundOp t) =
                .ok { kind := .refund, fromAddr := cfg.makerAddress, toAddr := cfg.takerAddress,
                      amount := cfg.amount, memo := refundLit ++ contractId cfg } := by
              simp [execOp, createRefundTransaction, he]
            exact Or.inl ⟨_, hok⟩

/-! ## C3: single-stage gating boundaries -/

/-- C3 (counterexample).  The claim asserts that a claim succeeds only
strictly before the deadline D, failing with TimelockExpired when now is
at or after D, and that a refund succeeds at or after D.  At the exact
deadline (millisecond reading 1000000 for deadline second 1000) the code
does the opposite of both: the claim succeeds and the refund fails with
the not-yet-expired error, because the source comparison is the strict
Date.now() / 1000 > timelock in both operations. -/
theorem C3_counterexample :
    exceptOk (createClaimingTransaction cfgA stdSecret 1000000) = true ∧
    createRefundTransaction cfgA 1000000 = .error .timelockNotExpired := by
  constructor <;> decide

/-- C3 (amended).  Gating of the single-stage escrow as the code implements
it: an invalid secret always fails first with the invalid-secret error;
with a valid secret, a claim succeeds exactly when the reading is at most
1000 times the deadline second (the deadline instant itself included) and
fails with the expired error strictly after it; a refund succeeds exactly
when the reading is strictly after the deadline instant and fails with the
not-yet-expired error otherwise. -/
theorem C3_gating (cfg : StellarHTLCConfig) (s : Str) (nowMs : Nat) :
    (validateSecret cfg s = false → createClaimingTransaction cfg s nowMs = .error .invalidSecret) ∧
    (validateSecret cfg s = true →
      (exceptOk (createClaimingTransaction cfg s nowMs) = true ↔ nowMs ≤ 1000 * cfg.timelock)) ∧
    (validateSecret cfg s = true → 1000 * cfg.timelock < nowMs →
      createClaimingTransaction cfg s nowMs = .error .timelockExpired) ∧
    (exceptOk (createRefundTransaction cfg nowMs) = true ↔ 1000 * cfg.timelock < nowMs) ∧
    (nowMs ≤ 1000 * cfg.timelock → createRefundTransaction cfg nowMs = .error .timelockNotExpired) := by
  refine ⟨?_, ?_, ?_, ?_, ?_⟩
  · intro hv
    simp [createClaimingTransaction, hv]
  · intro hv
    cases he : isTimelockExpired cfg nowMs with
    | false =>
        have he2 : nowMs ≤ 1000 * cfg.timelock := by
          have := he
          simp only [isTimelockExpired, decide_eq_false_iff_not, Nat.not_lt] at this
          omega
        simp [createClaimingTransaction, hv, he, exceptOk, he2]
    | true =>
        have he2 : 1000 * cfg.timelock < nowMs := by
          have := he
          simp only [isTimelockExpired, decide_eq_true_eq] at this
          omega
        simp [createClaimingTransaction, hv, he, exceptOk]
        omega
  · intro hv hlt
    have he : isTimelockExpired cfg nowMs = true := by
      simp only [isTimelockExpired, decide_eq_true_eq]
      omega
    simp [createClaimingTransaction, hv, he]
  · cases he : isTimelockExpired cfg nowMs with
    | false =>
        have he2 : nowMs ≤ 1000 * cfg.timelock := by
          have := he
          simp only [isTimelockExpired, decide_eq_false_iff_not, Nat.not_lt] at this
          omega
        simp [createRefundTransaction, he, exceptOk]
        omega
    | true =>
        have he2 : 1000 * cfg.timelock < nowMs := by
          have := he
          simp only [isTimelockExpired, decide_eq_true_eq] at this
          omega
        simp [createRefundTransaction, he, exceptOk, he2]
  · intro hle
    have he : isTimelockExpired cfg nowMs = false := by
      simp only [isTimelockExpired, decide_eq_false_iff_not, Nat.not_lt]
      omega
    simp [createRefundTransaction, he]

/-- C3 (witness).  Application of the gating theorem at the fixture record
and reading 0: the claim succeeds before the deadline and the refund is
rejected with the not-yet-expired error. -/
theorem C3_gating_witness :
    validateSecret cfgA stdSecret = true ∧
    exceptOk (createClaimingTransaction cfgA stdSecret 0) = true ∧
    createRefundTransaction cfgA 0 = .error .timelockNotExpired :=
  ⟨by decide,
   ((C3_gating cfgA stdSecret 0).2.1 (by decide)).mpr (by decide),
   (C3_gating cfgA stdSecret 0).2.2.2.2 (by decide)⟩

/-! ## C8: clock supply of the stage evaluation -/

/-- C8 (counterexample).  The claim asserts that evaluating whether the
deadline has expired never reads the ambient wall clock and is a function
of the schedule and an explicitly supplied clock value.  The source method
takes no clock argument at all: it reads Date.now() itself, so with the
ambient reading made explicit in the model, the same fixture record
evaluates differently at two ambient instants. -/
theorem C8_counterexample : isTimelockExpired cfgA 0 ≠ isTimelockExpired cfgA 5000000 := by
  decide

/-- C8 (amended).  With the ambient Date.now() reading modelled as an
explicit parameter, expiry evaluation is a deterministic pure function of
the deadline and that reading alone: two records with equal deadlines
evaluate identically at the same reading, and expiry is monotone in the
reading (the stage never reverts); but in the source the reading is the
ambient wall clock, not a caller-supplied value. -/
theorem C8_deterministic_in_reading (cfg cfg2 : StellarHTLCConfig) (t t2 : Nat)
    (h : cfg.timelock = cfg2.timelock) :
    isTimelockExpired cfg t = isTimelockExpired cfg2 t ∧
    (t ≤ t2 → isTimelockExpired cfg t = true → isTimelockExpired cfg2 t2 = true) := by
  constructor
  · simp [isTimelockExpired, h]
  · intro hle hexp
    simp only [isTimelockExpired, decide_eq_true_eq] at hexp ⊢
    omega

/-- C8 (witness).  Application of the determinism theorem to the fixture
record at readings 2000000 and 3000000. -/
theorem C8_deterministic_in_reading_witness :
    cfgA.timelock = cfgA.timelock ∧ isTimelockExpired cfgA 3000000 = true :=
  ⟨rfl, (C8_deterministic_in_reading cfgA cfgA 2000000 3000000 rfl).2 (by decide) (by decide)⟩

/-! ## C9: length handling of secret validation -/

/-- C9 (counterexample).  The claim asserts that a secret that is not
exactly 32 bytes makes verification fail with MalformedInput instead of
returning an ordinary boolean verdict.  The source has no length check
and no failure path: the fixture secret decodes to the single byte 171
(1 byte, not 32), yet validateSecret returns the ordinary verdict true
when the hashlock matches its digest, and the ordinary verdict false
against a non-digest hashlock. -/
theorem C9_counterexample :
    hexDecodeJS (strip0x (secretString shortSecretBytes)) = [171] ∧
    validateSecret cfgShort (secretString shortSecretBytes) = true ∧
    validateSecret cfgBad (secretString shortSecretBytes) = false := by
  refine ⟨?_, ?_, ?_⟩ <;> decide

/-- C9 (amended).  validateSecret returns an ordinary boolean for byte
lists of every length: for any byte list whatsoever (no 32-byte
constraint), the canonical string form validates true exactly against a
hashlock carrying its digest, and every secret validates false against a
hashlock whose stripped form does not even have digest length; there is no
MalformedInput failure path. -/
theorem C9_boolean_verdict_any_length (cfg : StellarHTLCConfig) (b : List Nat)
    (hb : ∀ x ∈ b, x < 256) (hh : strip0x cfg.hashlock = sha256Hex b) :
    validateSecret cfg (secretString b) = true ∧
    (∀ (cfg2 : StellarHTLCConfig) (s : Str), (strip0x cfg2.hashlock).length ≠ 64 →
      validateSecret cfg2 s = false) := by
  refine ⟨validateSecret_secretString cfg b hb hh, ?_⟩
  intro cfg2 s hlen
  exact validateSecret_false_of_hashlock_length cfg2 s hlen

/-- C9 (witness).  Application of the amended theorem to the one-byte
secret: it is accepted with an ordinary true, and the bad-hashlock record
rejects the same secret with an ordinary false. -/
theorem C9_boolean_verdict_any_length_witness :
    (∀ x ∈ shortSecretBytes, x < 256) ∧
    strip0x cfgShort.hashlock = sha256Hex shortSecretBytes ∧
    (validateSecret cfgShort (secretString shortSecretBytes) = true ∧
      validateSecret cfgBad (secretString shortSecretBytes) = false) :=
  ⟨by decide, by decide,
   (C9_boolean_verdict_any_length cfgShort shortSecretBytes (by decide) (by decide)).1,
   (C9_boolean_verdict_any_length cfgShort shortSecretBytes (by decide) (by decide)).2
     cfgBad (secretString shortSecretBytes) (by decide)⟩

/-! ## C4: extraction of the secret from the claim transaction -/

/-- C4 (confirmed).  For every 32-byte secret, taken in the canonical
0x-hex string form in which the scripts generate and pass every secret,
whose SHA-256 digest is the configured hashlock, and for an unexpired
reading, the claim transaction construction succeeds and extracting the
secret from the produced transaction returns exactly that secret. -/
theorem C4_extract_roundtrip (cfg : StellarHTLCConfig) (b : List Nat) (nowMs : Nat)
    (hlen : b.length = 32) (hb : ∀ x ∈ b, x < 256)
    (hh : strip0x cfg.hashlock = sha256Hex b)
    (hexp : isTimelockExpired cfg nowMs = false) :
    ∃ tx, createClaimingTransaction cfg (secretString b) nowMs = .ok tx ∧
      extractSecretFromTransaction cfg tx = some (secretString b) := by
  have hv : validateSecret cfg (secretString b) = true := validateSecret_secretString cfg b hb hh
  have hstrip : strip0x (secretString b) = hexEncode b := strip0x_0x _
  refine ⟨{ kind := .claim, fromAddr := cfg.makerAddress, toAddr := cfg.makerAddress,
            amount := cfg.amount,
            memo := claimLit ++ contractId cfg ++ '_' :: hexEncode b }, ?_, ?_⟩
  · simp [createClaimingTransaction, hv, hexp, hstrip]
  · have hhexne : hexEncode b ≠ [] := by
      intro h0
      have hl := length_hexEncode b
      rw [h0, hlen] at hl
      simp at hl
    have hfind : findClaimSecret (claimLit ++ (contractId cfg ++ '_' :: hexEncode b)) =
        some (hexEncode b) :=
      findClaimSecret_memo (contractId cfg) (hexEncode b) (contractId_ne_nil cfg)
        (fun c hc => contractId_no_underscore cfg c hc) hhexne
        (fun c hc => mem_hexEncode_isHex b c hc)
    have hv2 : validateSecret cfg ('0' :: 'x' :: hexEncode b) = true := by
      simpa [secretString] using hv
    simp [extractSecretFromTransaction, hfind, hv2, secretString]

/-- C4 (witness).  Application of the round-trip theorem to the 32-byte
fixture secret at reading 0. -/
theorem C4_extract_roundtrip_witness :
    stdSecretBytes.length = 32 ∧
    strip0x cfgA.hashlock = sha256Hex stdSecretBytes ∧
    isTimelockExpired cfgA 0 = false ∧
    (∃ tx, createClaimingTransaction cfgA (secretString stdSecretBytes) 0 = .ok tx ∧
      extractSecretFromTransaction cfgA tx = some (secretString stdSecretBytes)) :=
  ⟨by decide, by decide, by decide,
   C4_extract_roundtrip cfgA stdSecretBytes 0 (by decide) (by decide) (by decide) (by decide)⟩

/-! ## C10: soundness of secret extraction -/

/-- C10 (confirmed).  Secret extraction is sound: whenever it returns a
secret, the transaction was a claim transaction and the returned secret
passes validateSecret, so its SHA-256 digest is the configured hashlock;
by contraposition, a transaction of any other kind, or a memo whose
captured run does not hash to the hashlock, yields null, never a wrong
secret. -/
theorem C10_extraction_sound (cfg : StellarHTLCConfig) (tx : StellarTx) (s : Str)
    (h : extractSecretFromTransaction cfg tx = some s) :
    tx.kind = TxKind.claim ∧ validateSecret cfg s = true := by
  unfold extractSecretFromTransaction at h
  by_cases hk : tx.kind = TxKind.claim
  · refine ⟨hk, ?_⟩
    simp only [hk] at h
    simp at h
    cases hf : findClaimSecret tx.memo with
    | none => rw [hf] at h; simp at h
    | some hexRun =>
        rw [hf] at h
        cases hv : validateSecret cfg ('0' :: 'x' :: hexRun) with
        | false => simp [hv] at h
        | true =>
            simp [hv] at h
            rw [← h]
            exact hv
  · simp [hk] at h

/-- A concrete claim transaction whose memo embeds the one-byte fixture
secret after an arbitrary two-character contract-id run. -/
def txB : StellarTx :=
  { kind := .claim, fromAddr := ['G', 'M'], toAddr := ['G', 'M'], amount := ['1', '0'],
    memo := claimLit ++ ['a', 'b'] ++ '_' :: hexEncode shortSecretBytes }

/-- C10 (witness).  Application of the soundness theorem to a concrete
extraction that succeeds. -/
theorem C10_extraction_sound_witness :
    extractSecretFromTransaction cfgShort txB = some (secretString shortSecretBytes) ∧
    (txB.kind = TxKind.claim ∧
      validateSecret cfgShort (secretString shortSecretBytes) = true) :=
  ⟨by decide,
   C10_extraction_sound cfgShort txB (secretString shortSecretBytes) (by decide)⟩

/-! ## C5: local re-verification before the dependent-leg claim -/

/-- C5 (confirmed).  Before the dependent-leg claim, the coordinator
recomputes the hash of the extracted secret locally; whenever it differs
from the session hashlock the step fails with the invalid-secret-extracted
error and nothing proceeds to submission, and a success certifies that the
recomputed hash equals the hashlock and the secret is passed through
unchanged. -/
theorem C5_local_reverification (hashlock extracted : Str) :
    (('0' :: 'x' :: sha256Hex (hexDecodeJS (extracted.drop 2))) ≠ hashlock →
      claimAssetsVerify hashlock extracted = .error .invalidSecretExtracted) ∧
    (∀ s, claimAssetsVerify hashlock extracted = .ok s →
      ('0' :: 'x' :: sha256Hex (hexDecodeJS (extracted.drop 2))) = hashlock ∧ s = extracted) := by
  constructor
  · intro hne
    have hbe : (('0' :: 'x' :: sha256Hex (hexDecodeJS (extracted.drop 2))) == hashlock) = false := by
      rw [beq_eq_false_iff_ne]
      exact hne
    simp [claimAssetsVerify, hbe]
  · intro s hs
    unfold claimAssetsVerify at hs
    cases hbe : (('0' :: 'x' :: sha256Hex (hexDecodeJS (extracted.drop 2))) == hashlock) with
    | false => simp [hbe] at hs
    | true =>
        refine ⟨by rwa [beq_iff_eq] at hbe, ?_⟩
        simp [hbe] at hs
        exact hs.symm

/-- C5 (witness).  Application of the re-verification theorem to a
hashlock that cannot match: the dependent-leg step fails before
submission. -/
theorem C5_local_reverification_witness :
    ('0' :: 'x' :: sha256Hex (hexDecodeJS (stdSecret.drop 2))) ≠ ['n', 'o'] ∧
    claimAssetsVerify ['n', 'o'] stdSecret = .error .invalidSecretExtracted :=
  ⟨by decide, (C5_local_reverification ['n', 'o'] stdSecret).1 (by decide)⟩

/-! ## C6: margin invariant at session creation -/

/-- C6 (counterexample).  The claim asserts that session creation rejects,
before any funding, every pair of leg schedules whose secret-revealing
cancellation checkpoint lies strictly before the dependent-leg claim
deadline.  Session creation in the source is total and checks nothing:
with the hashlock step at reading 0 and the lock step at reading 10000,
the created session has the Stellar (revealing) deadline 86400 strictly
before the Base (dependent) cancellation boundary 86410, and it is created
all the same. -/
theorem C6_counterexample :
    (createSessionModel 0 10000 stdSecretBytes).stellarTimelock <
      packedCancellationTime (createSessionModel 0 10000 stdSecretBytes).packedTimelocks := by
  decide

/-- C6 (amended).  Session creation never rejects and validates no margin:
it always returns a session whose revealing-leg deadline is the hashlock
step reading (in seconds) plus 86400 and whose dependent-leg cancellation
boundary is the lock step reading (in seconds) plus 86400; consequently,
whenever the lock step runs at a later second than the hashlock step, the
created session violates the margin ordering the claim wanted rejected. -/
theorem C6_no_margin_check (nowMs1 nowMs2 : Nat) (b : List Nat) :
    (createSessionModel nowMs1 nowMs2 b).stellarTimelock = nowMs1 / 1000 + 86400 ∧
    packedCancellationTime (createSessionModel nowMs1 nowMs2 b).packedTimelocks =
      nowMs2 / 1000 + 86400 ∧
    (nowMs1 / 1000 < nowMs2 / 1000 →
      (createSessionModel nowMs1 nowMs2 b).stellarTimelock <
        packedCancellationTime (createSessionModel nowMs1 nowMs2 b).packedTimelocks) := by
  obtain ⟨h1, h2, h3, h4⟩ :=
    packTimelocks_fields (nowMs2 / 1000) 3600 21600 86400 (by norm_num) (by norm_num) (by norm_num)
  have hc : packedCancellationTime (createSessionModel nowMs1 nowMs2 b).packedTimelocks =
      nowMs2 / 1000 + 86400 := by
    simp only [createSessionModel, packedCancellationTime]
    rw [h3, h4]
  refine ⟨rfl, hc, ?_⟩
  intro hlt
  have hs : (createSessionModel nowMs1 nowMs2 b).stellarTimelock = nowMs1 / 1000 + 86400 := rfl
  rw [hs, hc]
  omega

/-- C6 (witness).  Application of the amended theorem at readings 0 and
10000: the created session has its revealing-leg deadline strictly before
its dependent-leg cancellation boundary. -/
theorem C6_no_margin_check_witness :
    (0 : Nat) / 1000 < (10000 : Nat) / 1000 ∧
    (createSessionModel 0 10000 stdSecretBytes).stellarTimelock <
      packedCancellationTime (createSessionModel 0 10000 stdSecretBytes).packedTimelocks :=
  ⟨by decide, (C6_no_margin_check 0 10000 stdSecretBytes).2.2 (by decide)⟩

/-! ## C7: timelock packing layout and overflow -/

/-- C7 (counterexample).  The claim asserts that encoding fails with
OffsetOverflow when an offset exceeds the 32-bit maximum and that the
fields never overlap.  The packing expression checks nothing: packing the
oversized withdrawal offset 4294967296 produces a value (no failure) that
is identical to packing a public-withdrawal offset of 1, the oversized
field having spilled into its neighbour. -/
theorem C7_counterexample :
    2 ^ 32 - 1 < 4294967296 ∧
    packTimelocks 0 4294967296 0 0 = packTimelocks 0 0 1 0 := by
  constructor <;> decide

/-- C7 (amended).  The packing expression never fails and performs no
overflow check; when each of the three offsets is below 2 to the 32, the
word carries the withdrawal offset in bits 0 to 31, the public-withdrawal
offset in bits 32 to 63, the cancellation offset in bits 64 to 95 and the
deployment timestamp at bits 224 and above, each field recoverable
exactly, so the fields are disjoint precisely in that bounded case. -/
theorem C7_field_layout (d w pw c : Nat)
    (hw : w < 2 ^ 32) (hpw : pw < 2 ^ 32) (hc : c < 2 ^ 32) :
    packTimelocks d w pw c % 2 ^ 32 = w ∧
    packTimelocks d w pw c / 2 ^ 32 % 2 ^ 32 = pw ∧
    packTimelocks d w pw c / 2 ^ 64 % 2 ^ 32 = c ∧
    packTimelocks d w pw c / 2 ^ 224 = d :=
  packTimelocks_fields d w pw c hw hpw hc

/-- C7 (witness).  Application of the layout theorem to the production
offsets of the coordinator scripts at deployment second 1700000000. -/
theorem C7_field_layout_witness :
    (3600 : Nat) < 2 ^ 32 ∧
    packTimelocks 1700000000 3600 21600 86400 % 2 ^ 32 = 3600 ∧
    packTimelocks 1700000000 3600 21600 86400 / 2 ^ 32 % 2 ^ 32 = 21600 ∧
    packTimelocks 1700000000 3600 21600 86400 / 2 ^ 64 % 2 ^ 32 = 86400 ∧
    packTimelocks 1700000000 3600 21600 86400 / 2 ^ 224 = 1700000000 :=
  ⟨by decide,
   (C7_field_layout 1700000000 3600 21600 86400 (by decide) (by decide) (by decide)).1,
   (C7_field_layout 1700000000 3600 21600 86400 (by decide) (by decide) (by decide)).2.1,
   (C7_field_layout 1700000000 3600 21600 86400 (by decide) (by decide) (by decide)).2.2.1,
   (C7_field_layout 1700000000 3600 21600 86400 (by decide) (by decide) (by decide)).2.2.2⟩
